import Mathlib

/-
Verification of the event-loop core of the crust repository
(src/src/common/core.rs): the Core registry with its two wrapping
identifier counters, the token/context and context/state maps, the
dispatcher entry points (ready, timeout, terminate_state, notify), and
the call-once Closure envelope.

Modelling choices:
* usize is modelled as Nat reduced modulo USIZE = 2 ^ 64; wrapping_add 1
  becomes (n + 1) % USIZE.
* HashMap is modelled extensionally as a function into Option.
* The state objects stored in the registry are opaque handles of an
  arbitrary type sigma; their behaviour (the State trait methods, which
  receive mutable access to the Core and to the event loop) is an
  explicit StateBehavior record, so dispatch is parametric in what the
  states do, exactly as the Rust code is parametric in the trait objects.
* The event loop (mio EventLoop) is an opaque type L that the state
  capabilities and closures may transform.
* Rust methods taking &mut self are functions Core -> ... -> result x Core.
* Dispatch functions additionally return the list of capability
  invocations they perform directly, so that claims of the form "invokes
  no capability" or "invokes it exactly once" are expressible; the Rust
  code either performs the call or does not, and the trace records
  exactly that.
-/

namespace Crust

/-- The modulus of usize arithmetic; usize is taken to be 64 bits wide. -/
def USIZE : Nat := 2 ^ 64

/-- mio Token is a newtype over usize; modelled as the underlying value. -/
abbrev Token := Nat

/-- Context(pub usize), a locally generated logical-unit identifier. -/
abbrev Context := Nat

/-- mio EventSet, an opaque readiness bit mask. -/
abbrev EventSet := Nat

/-- The core of the event loop: two usize counters and the two registry
maps.  The type sigma stands for Rc RefCell State handles. -/
structure Core (σ : Type) where
  token_counter : Nat
  context_counter : Nat
  contexts : Token → Option Context
  states : Context → Option σ

variable {σ L : Type}

/-- Core::with_context_counter: token_counter starts at 0, the context
counter at the given seed, both maps empty. -/
def Core.with_context_counter (context_counter : Nat) : Core σ :=
  ⟨0, context_counter, fun _ => none, fun _ => none⟩

/-- Core::new is with_context_counter(0). -/
def Core.new : Core σ :=
  Core.with_context_counter 0

/-- Core::get_new_token: return the current counter, then wrapping_add 1. -/
def Core.get_new_token (core : Core σ) : Token × Core σ :=
  (core.token_counter, { core with token_counter := (core.token_counter + 1) % USIZE })

/-- Core::get_new_context: return the current counter, then wrapping_add 1. -/
def Core.get_new_context (core : Core σ) : Context × Core σ :=
  (core.context_counter, { core with context_counter := (core.context_counter + 1) % USIZE })

/-- Core::insert_context: HashMap::insert on the token map, returning the
previous binding. -/
def Core.insert_context (core : Core σ) (token : Token) (context : Context) :
    Option Context × Core σ :=
  (core.contexts token,
   { core with contexts := fun t => if t = token then some context else core.contexts t })

/-- Core::insert_state: HashMap::insert on the state map, returning the
previous binding. -/
def Core.insert_state (core : Core σ) (context : Context) (state : σ) :
    Option σ × Core σ :=
  (core.states context,
   { core with states := fun c => if c = context then some state else core.states c })

/-- Core::remove_context: HashMap::remove on the token map, returning the
removed binding. -/
def Core.remove_context (core : Core σ) (token : Token) : Option Context × Core σ :=
  (core.contexts token,
   { core with contexts := fun t => if t = token then none else core.contexts t })

/-- Core::remove_state: HashMap::remove on the state map, returning the
removed binding. -/
def Core.remove_state (core : Core σ) (context : Context) : Option σ × Core σ :=
  (core.states context,
   { core with states := fun c => if c = context then none else core.states c })

/-- Core::get_context: pure lookup in the token map. -/
def Core.get_context (core : Core σ) (token : Token) : Option Context :=
  core.contexts token

/-- Core::get_state: pure lookup in the state map. -/
def Core.get_state (core : Core σ) (context : Context) : Option σ :=
  core.states context

/-- A record of one capability invocation performed directly by a
dispatcher entry point. -/
inductive Capability (σ : Type) where
  | ready (state : σ) (token : Token) (events : EventSet)
  | timeout (state : σ) (token : Token)
  | terminate (state : σ)
deriving DecidableEq

/-- The State trait interface: each method receives the state handle, the
Core and the event loop by mutable access and may transform both. -/
structure StateBehavior (σ L : Type) where
  ready : σ → Core σ → L → Token → EventSet → Core σ × L
  timeout : σ → Core σ → L → Token → Core σ × L
  terminate : σ → Core σ → L → Core σ × L

/-- Handler::ready for Core: resolve token to context to state via
Option bind (and_then); on a miss do nothing, otherwise call the state's
ready capability. -/
def Core.ready (beh : StateBehavior σ L) (core : Core σ) (event_loop : L)
    (token : Token) (events : EventSet) : Core σ × L × List (Capability σ) :=
  match (core.get_context token).bind (fun c => core.get_state c) with
  | some s =>
      let r := beh.ready s core event_loop token events
      (r.1, r.2, [Capability.ready s token events])
  | none => (core, event_loop, [])

/-- Handler::timeout for Core: same resolution path as ready, then the
state's timeout capability. -/
def Core.timeout (beh : StateBehavior σ L) (core : Core σ) (event_loop : L)
    (token : Token) : Core σ × L × List (Capability σ) :=
  match (core.get_context token).bind (fun c => core.get_state c) with
  | some s =>
      let r := beh.timeout s core event_loop token
      (r.1, r.2, [Capability.timeout s token])
  | none => (core, event_loop, [])

/-- Core::terminate_state: resolve the context to a state; on a miss do
nothing, otherwise call the state's terminate capability. -/
def Core.terminate_state (beh : StateBehavior σ L) (core : Core σ) (event_loop : L)
    (context : Context) : Core σ × L × List (Capability σ) :=
  match core.get_state context with
  | some s =>
      let r := beh.terminate s core event_loop
      (r.1, r.2, [Capability.terminate s])
  | none => (core, event_loop, [])

/-- Closure: the Box FnOnce workaround.  The payload closure is stored in
an Option holder that the wrapping FnMut consumes on first call. -/
structure Closure (σ L : Type) where
  payload : Option (Core σ → L → Core σ × L)

/-- The result of driving the wrapped FnMut once: the (possibly emptied)
envelope, the transformed core and event loop, and how many times the
payload ran during this call. -/
structure CallResult (σ L : Type) where
  closure : Closure σ L
  core : Core σ
  event_loop : L
  runs : Nat

/-- Closure::new: wrap the payload as Some and build the FnMut that
takes the holder on each call. -/
def Closure.new (f : Core σ → L → Core σ × L) : Closure σ L :=
  ⟨some f⟩

/-- One call of the wrapping FnMut: if the holder is full, take the
payload (leaving the holder empty) and run it; if empty, do nothing. -/
def Closure.call (cl : Closure σ L) (core : Core σ) (event_loop : L) : CallResult σ L :=
  match cl.payload with
  | some f =>
      let r := f core event_loop
      ⟨⟨none⟩, r.1, r.2, 1⟩
  | none => ⟨cl, core, event_loop, 0⟩

/-- Closure::invoke: consume the envelope and drive the FnMut once. -/
def Closure.invoke (cl : Closure σ L) (core : Core σ) (event_loop : L) :
    Core σ × L × Nat :=
  let r := cl.call core event_loop
  (r.core, r.event_loop, r.runs)

/-- Handler::notify for Core: invoke the delivered message envelope. -/
def Core.notify (core : Core σ) (event_loop : L) (msg : Closure σ L) :
    Core σ × L × Nat :=
  msg.invoke core event_loop

/-- The Core after n successive get_new_token calls. -/
def Core.afterTokens (core : Core σ) : Nat → Core σ
  | 0 => core
  | n + 1 => ((core.afterTokens n).get_new_token).2

/-- The value returned by the call number n (counting from 0) in a run of
successive get_new_token calls. -/
def Core.tokenAt (core : Core σ) (n : Nat) : Nat :=
  (core.afterTokens n).token_counter

/-- The Core after n successive get_new_context calls. -/
def Core.afterContexts (core : Core σ) : Nat → Core σ
  | 0 => core
  | n + 1 => ((core.afterContexts n).get_new_context).2

/-- The value returned by the call number n (counting from 0) in a run of
successive get_new_context calls. -/
def Core.contextAt (core : Core σ) (n : Nat) : Nat :=
  (core.afterContexts n).context_counter

/-- A behaviour whose capabilities leave the core and event loop
untouched, used for concrete instantiations. -/
def unitBehavior : StateBehavior Nat Unit :=
  ⟨fun _ c l _ _ => (c, l), fun _ c l _ => (c, l), fun _ c l => (c, l)⟩

/-- A concrete core holding one state (handle 42) at context 7. -/
def coreWithState : Core Nat :=
  ((Core.new).insert_state 7 42).2

/-- A concrete core whose two counters both hold the maximum usize. -/
def coreMax : Core Unit :=
  ⟨USIZE - 1, USIZE - 1, fun _ => none, fun _ => none⟩

theorem afterTokens_counter (core : Core σ) (h : core.token_counter < USIZE) :
    ∀ n, (core.afterTokens n).token_counter = (core.token_counter + n) % USIZE := by
  intro n
  induction n with
  | zero => simp [Core.afterTokens, Nat.mod_eq_of_lt h]
  | succ n ih =>
      show ((core.afterTokens n).get_new_token).2.token_counter = _
      simp only [Core.get_new_token, ih]
      rw [Nat.mod_add_mod, Nat.add_assoc]

theorem afterContexts_counter (core : Core σ) (h : core.context_counter < USIZE) :
    ∀ n, (core.afterContexts n).context_counter = (core.context_counter + n) % USIZE := by
  intro n
  induction n with
  | zero => simp [Core.afterContexts, Nat.mod_eq_of_lt h]
  | succ n ih =>
      show ((core.afterContexts n).get_new_context).2.context_counter = _
      simp only [Core.get_new_context, ih]
      rw [Nat.mod_add_mod, Nat.add_assoc]

theorem tokenAt_eq (core : Core σ) (h : core.token_counter < USIZE) (n : Nat) :
    core.tokenAt n = (core.token_counter + n) % USIZE :=
  afterTokens_counter core h n

theorem contextAt_eq (core : Core σ) (h : core.context_counter < USIZE) (n : Nat) :
    core.contextAt n = (core.context_counter + n) % USIZE :=
  afterContexts_counter core h n

theorem usize_pos : 0 < USIZE := by
  decide

/-- Claim C1: a Closure built from a payload f runs f exactly once on its
first invocation, producing exactly the core and event loop f produces;
driving the emptied envelope a second time runs the payload zero further
times and returns its arguments unchanged (a silent no-op). -/
theorem closure_invoked_once (σ L : Type) (f : Core σ → L → Core σ × L)
    (core : Core σ) (event_loop : L) :
    ((Closure.new f).invoke core event_loop).2.2 = 1 ∧
    ((Closure.new f).call core event_loop).runs = 1 ∧
    ((Closure.new f).call core event_loop).core = (f core event_loop).1 ∧
    ((Closure.new f).call core event_loop).event_loop = (f core event_loop).2 ∧
    (∀ (core2 : Core σ) (l2 : L),
      (((Closure.new f).call core event_loop).closure.call core2 l2).runs = 0 ∧
      (((Closure.new f).call core event_loop).closure.call core2 l2).core = core2 ∧
      (((Closure.new f).call core event_loop).closure.call core2 l2).event_loop = l2) :=
  ⟨rfl, rfl, rfl, rfl, fun _ _ => ⟨rfl, rfl, rfl⟩⟩

/-- Claim C2: dispatching readiness or timeout on a token with no bound
context, or bound to a context with no bound state, invokes no capability,
raises no fault, and leaves the core and event loop unchanged. -/
theorem dispatch_unbound_noop (σ L : Type) (beh : StateBehavior σ L)
    (core : Core σ) (event_loop : L) (t : Token) (es : EventSet)
    (h : core.get_context t = none ∨
         ∃ c, core.get_context t = some c ∧ core.get_state c = none) :
    Core.ready beh core event_loop t es = (core, event_loop, []) ∧
    Core.timeout beh core event_loop t = (core, event_loop, []) := by
  have hbind : (core.get_context t).bind (fun c => core.get_state c) = none := by
    rcases h with h | ⟨c, hc, hs⟩
    · simp [h]
    · simp [hc, hs]
  constructor
  · simp [Core.ready, hbind]
  · simp [Core.timeout, hbind]

theorem dispatch_unbound_noop_witness :
    Core.ready unitBehavior (Core.new : Core Nat) () 5 0 = (Core.new, (), []) ∧
    Core.timeout unitBehavior (Core.new : Core Nat) () 5 = (Core.new, (), []) :=
  dispatch_unbound_noop Nat Unit unitBehavior Core.new () 5 0 (Or.inl rfl)

/-- Claim C3: insert_context t c followed by get_context t yields some c,
and remove_context t followed by get_context t yields none. -/
theorem bind_unbind_resolve (σ : Type) (core : Core σ) (t : Token) (c : Context) :
    ((core.insert_context t c).2).get_context t = some c ∧
    ((core.remove_context t).2).get_context t = none := by
  constructor
  · simp [Core.insert_context, Core.get_context]
  · simp [Core.remove_context, Core.get_context]

/-- Claim C4, counterexample: with the seeded constructor at seed 100 the
first generated token is 0, not 100, so the seeded constructor does not
start the resource-identifier stream at the seed. -/
theorem seeded_token_stream_counterexample :
    ¬ (((Core.with_context_counter 100 : Core Unit).get_new_token).1 = 100) := by
  decide

/-- Claim C4, amended: the seeded constructor starts only the context
stream at the seed s (first get_new_context returns s) while the token
stream always starts at 0; the default constructor starts both at 0. -/
theorem seeded_constructor_streams (σ : Type) (s : Nat) :
    ((Core.with_context_counter s : Core σ).get_new_context).1 = s ∧
    ((Core.with_context_counter s : Core σ).get_new_token).1 = 0 ∧
    ((Core.new : Core σ).get_new_context).1 = 0 ∧
    ((Core.new : Core σ).get_new_token).1 = 0 :=
  ⟨rfl, rfl, rfl, rfl⟩

/-- Claim C5: for a context with a bound state, terminate_state invokes
that state's terminate capability exactly once, and the resulting core and
event loop are exactly the capability's output: terminate_state itself
removes neither a token binding nor a state binding. -/
theorem terminate_state_invokes_once (σ L : Type) (beh : StateBehavior σ L)
    (core : Core σ) (event_loop : L) (c : Context) (s : σ)
    (h : core.get_state c = some s) :
    Core.terminate_state beh core event_loop c =
      ((beh.terminate s core event_loop).1, (beh.terminate s core event_loop).2,
       [Capability.terminate s]) := by
  simp [Core.terminate_state, h]

theorem terminate_state_invokes_once_witness :
    Core.terminate_state unitBehavior coreWithState () 7 =
      ((unitBehavior.terminate 42 coreWithState ()).1,
       (unitBehavior.terminate 42 coreWithState ()).2,
       [Capability.terminate 42]) :=
  terminate_state_invokes_once Nat Unit unitBehavior coreWithState () 7 42 rfl

/-- Claim C6: each counter returns its current value and then increments
by exactly one modulo the word size; in a run of successive calls the
values are strictly increasing before wraparound, pairwise distinct before
wraparound, and from the maximum value the stream returns the maximum and
then wraps to zero.  Stated for both get_new_token and get_new_context. -/
theorem counter_streams_monotone :
    (∀ (σ : Type) (core : Core σ),
      (core.get_new_token).1 = core.token_counter ∧
      (core.get_new_token).2.token_counter = (core.token_counter + 1) % USIZE) ∧
    (∀ (σ : Type) (core : Core σ),
      (core.get_new_context).1 = core.context_counter ∧
      (core.get_new_context).2.context_counter = (core.context_counter + 1) % USIZE) ∧
    (∀ (σ : Type) (core : Core σ) (i j : Nat),
      i < j → core.token_counter + j < USIZE → core.tokenAt i < core.tokenAt j) ∧
    (∀ (σ : Type) (core : Core σ) (i j : Nat),
      i ≠ j → core.token_counter + i < USIZE → core.token_counter + j < USIZE →
      core.tokenAt i ≠ core.tokenAt j) ∧
    (∀ (σ : Type) (core : Core σ), core.token_counter = USIZE - 1 →
      core.tokenAt 0 = USIZE - 1 ∧ core.tokenAt 1 = 0) ∧
    (∀ (σ : Type) (core : Core σ) (i j : Nat),
      i < j → core.context_counter + j < USIZE → core.contextAt i < core.contextAt j) ∧
    (∀ (σ : Type) (core : Core σ) (i j : Nat),
      i ≠ j → core.context_counter + i < USIZE → core.context_counter + j < USIZE →
      core.contextAt i ≠ core.contextAt j) ∧
    (∀ (σ : Type) (core : Core σ), core.context_counter = USIZE - 1 →
      core.contextAt 0 = USIZE - 1 ∧ core.contextAt 1 = 0) := by
  have hW : 0 < USIZE := usize_pos
  refine ⟨fun σ core => ⟨rfl, rfl⟩, fun σ core => ⟨rfl, rfl⟩, ?_, ?_, ?_, ?_, ?_, ?_⟩
  · intro σ core i j hij hjW
    have hc : core.token_counter < USIZE := by omega
    rw [tokenAt_eq core hc, tokenAt_eq core hc,
        Nat.mod_eq_of_lt (by omega), Nat.mod_eq_of_lt (by omega)]
    omega
  · intro σ core i j hij hiW hjW
    have hc : core.token_counter < USIZE := by omega
    rw [tokenAt_eq core hc, tokenAt_eq core hc,
        Nat.mod_eq_of_lt (by omega), Nat.mod_eq_of_lt (by omega)]
    omega
  · intro σ core hc
    have hlt : core.token_counter < USIZE := by omega
    constructor
    · rw [tokenAt_eq core hlt, Nat.mod_eq_of_lt (by omega)]
      omega
    · rw [tokenAt_eq core hlt, hc, Nat.sub_add_cancel hW, Nat.mod_self]
  · intro σ core i j hij hjW
    have hc : core.context_counter < USIZE := by omega
    rw [contextAt_eq core hc, contextAt_eq core hc,
        Nat.mod_eq_of_lt (by omega), Nat.mod_eq_of_lt (by omega)]
    omega
  · intro σ core i j hij hiW hjW
    have hc : core.context_counter < USIZE := by omega
    rw [contextAt_eq core hc, contextAt_eq core hc,
        Nat.mod_eq_of_lt (by omega), Nat.mod_eq_of_lt (by omega)]
    omega
  · intro σ core hc
    have hlt : core.context_counter < USIZE := by omega
    constructor
    · rw [contextAt_eq core hlt, Nat.mod_eq_of_lt (by omega)]
      omega
    · rw [contextAt_eq core hlt, hc, Nat.sub_add_cancel hW, Nat.mod_self]

theorem counter_streams_monotone_witness :
    Core.tokenAt (Core.new : Core Unit) 0 < Core.tokenAt (Core.new : Core Unit) 1 ∧
    Core.tokenAt coreMax 0 = USIZE - 1 ∧ Core.tokenAt coreMax 1 = 0 ∧
    Core.contextAt coreMax 0 = USIZE - 1 ∧ Core.contextAt coreMax 1 = 0 := by
  have h := counter_streams_monotone
  exact ⟨h.2.2.1 Unit Core.new 0 1 (by decide) (by decide),
         (h.2.2.2.2.1 Unit coreMax rfl).1, (h.2.2.2.2.1 Unit coreMax rfl).2,
         (h.2.2.2.2.2.2.2 Unit coreMax rfl).1, (h.2.2.2.2.2.2.2 Unit coreMax rfl).2⟩

/-- Claim C7: seeding the context counter at s makes the call number n
(counting calls from 1) of get_new_context return (s + n - 1) modulo the
word size; in particular seed 100 gives 100 then 101. -/
theorem seeded_context_sequence (σ : Type) (s n : Nat)
    (hs : s < USIZE) (hn : 1 ≤ n) :
    Core.contextAt (Core.with_context_counter s : Core σ) (n - 1) = (s + n - 1) % USIZE ∧
    Core.contextAt (Core.with_context_counter s : Core σ) 0 = s ∧
    Core.contextAt (Core.with_context_counter 100 : Core σ) 0 = 100 ∧
    Core.contextAt (Core.with_context_counter 100 : Core σ) 1 = 101 := by
  have h100 : (100 : Nat) < USIZE := by decide
  have hseed : (Core.with_context_counter s : Core σ).context_counter = s := rfl
  refine ⟨?_, ?_, ?_, ?_⟩
  · rw [contextAt_eq _ (by rw [hseed]; exact hs), hseed]
    congr 1
    omega
  · rw [contextAt_eq _ (by rw [hseed]; exact hs), hseed]
    simpa using Nat.mod_eq_of_lt hs
  · rw [contextAt_eq _ h100]
    exact Nat.mod_eq_of_lt h100
  · rw [contextAt_eq _ h100]
    have h101 : (101 : Nat) < USIZE := by decide
    exact Nat.mod_eq_of_lt h101

theorem seeded_context_sequence_witness :
    Core.contextAt (Core.with_context_counter 100 : Core Unit) 1 = (100 + 2 - 1) % USIZE ∧
    Core.contextAt (Core.with_context_counter 100 : Core Unit) 0 = 100 ∧
    Core.contextAt (Core.with_context_counter 100 : Core Unit) 0 = 100 ∧
    Core.contextAt (Core.with_context_counter 100 : Core Unit) 1 = 101 :=
  seeded_context_sequence Unit 100 2 (by decide) (by decide)

/-- Claim C8: after insert_context t c1, a second insert_context t c2
returns some c1 as the previous binding, and get_context t afterwards
returns some c2. -/
theorem rebind_returns_previous (σ : Type) (core : Core σ) (t : Token)
    (c1 c2 : Context) :
    (((core.insert_context t c1).2).insert_context t c2).1 = some c1 ∧
    ((((core.insert_context t c1).2).insert_context t c2).2).get_context t = some c2 := by
  constructor
  · simp [Core.insert_context]
  · simp [Core.insert_context, Core.get_context]

/-- Claim C9: for a context with no bound state, terminate_state invokes
no capability, raises no fault, and returns the core (both maps and both
counters) and the event loop unchanged. -/
theorem terminate_state_missing_noop (σ L : Type) (beh : StateBehavior σ L)
    (core : Core σ) (event_loop : L) (c : Context)
    (h : core.get_state c = none) :
    Core.terminate_state beh core event_loop c = (core, event_loop, []) := by
  simp [Core.terminate_state, h]

theorem terminate_state_missing_noop_witness :
    Core.terminate_state unitBehavior (Core.new : Core Nat) () 3 = (Core.new, (), []) :=
  terminate_state_missing_noop Nat Unit unitBehavior Core.new () 3 rfl

/-- Claim C10: frame independence of the registry pieces: the token-map
mutators leave the state map and both counters unchanged, the state-map
mutators leave the token map and both counters unchanged, get_new_token
changes only the token counter, and get_new_context changes only the
context counter. -/
theorem registry_frame_independence (σ : Type) (core : Core σ) (t : Token)
    (c : Context) (s : σ) :
    ((core.insert_context t c).2.states = core.states ∧
     (core.insert_context t c).2.token_counter = core.token_counter ∧
     (core.insert_context t c).2.context_counter = core.context_counter) ∧
    ((core.remove_context t).2.states = core.states ∧
     (core.remove_context t).2.token_counter = core.token_counter ∧
     (core.remove_context t).2.context_counter = core.context_counter) ∧
    ((core.insert_state c s).2.contexts = core.contexts ∧
     (core.insert_state c s).2.token_counter = core.token_counter ∧
     (core.insert_state c s).2.context_counter = core.context_counter) ∧
    ((core.remove_state c).2.contexts = core.contexts ∧
     (core.remove_state c).2.token_counter = core.token_counter ∧
     (core.remove_state c).2.context_counter = core.context_counter) ∧
    ((core.get_new_token).2.contexts = core.contexts ∧
     (core.get_new_token).2.states = core.states ∧
     (core.get_new_token).2.context_counter = core.context_counter) ∧
    ((core.get_new_context).2.contexts = core.contexts ∧
     (core.get_new_context).2.states = core.states ∧
     (core.get_new_context).2.token_counter = core.token_counter) :=
  ⟨⟨rfl, rfl, rfl⟩, ⟨rfl, rfl, rfl⟩, ⟨rfl, rfl, rfl⟩,
   ⟨rfl, rfl, rfl⟩, ⟨rfl, rfl, rfl⟩, ⟨rfl, rfl, rfl⟩⟩

end Crust
